import Mathlib

/-!
Verification of the configuration-parsing and Service-reconciliation logic of
the loadbalancer-k8s-operator charm (`src/charm_k8s_loadbalancer.py`).

Python strings are embedded as `List Char` (`Str`); Python dicts over strings
as insertion-ordered association lists with last-write-wins update
(`dictInsert`), matching CPython semantics.  The Kubernetes client
(lightkube, an external collaborator) is embedded two ways: as abstract
response functions (for error-propagation claims) and as a deterministic
state-passing semantics over a cluster keyed by (namespace, name) (for the
state-machine claims).  The Python stdlib collaborators `json.loads` and
`ipaddress.ip_address` are modelled concretely below for the fragment the
charm exercises (ASCII input; JSON without NaN/Infinity literals and without
lone-surrogate escapes; IP addresses without IPv6 zone identifiers).
-/

namespace LB

/-- Python strings, embedded as lists of characters. -/
abbrev Str := List Char

/-- Python `dict[str, str]`, embedded as an insertion-ordered association
list; `dictInsert` mirrors `d[k] = v` (update in place, append if new). -/
abbrev Dict := List (Str × Str)

/-- CPython `d[k] = v`: replaces the value at the first matching key keeping
its position, appends the pair otherwise. -/
def dictInsert (d : Dict) (k v : Str) : Dict :=
  if d.any (fun kv => kv.1 = k) then
    d.map (fun kv => if kv.1 = k then (k, v) else kv)
  else
    d ++ [(k, v)]

/-- The whitespace characters stripped by Python `str.strip()` (ASCII
fragment). -/
def isPySpace (c : Char) : Bool :=
  c = ' ' ∨ c = '\t' ∨ c = '\n' ∨ c = '\r' ∨ c = Char.ofNat 11 ∨ c = Char.ofNat 12

/-- Python `s.strip()`: drop leading and trailing whitespace. -/
def stripList (l : Str) : Str :=
  ((l.dropWhile isPySpace).reverse.dropWhile isPySpace).reverse

/-- Python `s.rstrip(",")`: drop trailing commas. -/
def rstripCommas (l : Str) : Str :=
  (l.reverse.dropWhile (fun c => c = ',')).reverse

/-- Python `s.split(sep)` for a one-character separator: `""` yields `[""]`,
separators at the ends yield empty segments. -/
def splitOnChar (c : Char) : Str → List Str
  | [] => [[]]
  | x :: xs =>
    if x = c then [] :: splitOnChar c xs
    else
      match splitOnChar c xs with
      | [] => [[x]]
      | h :: t => (x :: h) :: t

/-- Python `s.split(sep, 1)` for a one-character separator, returning `none`
when the separator does not occur (the code guards with `sep not in s`). -/
def splitFirst (c : Char) : Str → Option (Str × Str)
  | [] => none
  | x :: xs =>
    if x = c then some ([], xs)
    else (splitFirst c xs).map (fun p => (x :: p.1, p.2))

/-- `sep.join`-style concatenation. -/
def joinWith (sep : Str) : List Str → Str
  | [] => []
  | [x] => x
  | x :: y :: t => x ++ sep ++ joinWith sep (y :: t)

/-- The error taxonomy visible to the caller: invalid user configuration
(`ConfigError`) or a propagated Kubernetes API error (lightkube `ApiError`,
carrying the HTTP status code the charm inspects). -/
structure ApiErr where
  code : Nat
  msg : String
deriving DecidableEq

inductive CharmError
  | configError (msg : String)
  | apiError (e : ApiErr)
deriving DecidableEq

/-! ### Model of the stdlib collaborator `json.loads`

`parse_selector` hands selector strings that start with `\x7b` to
`json.loads` and then checks the result is a non-empty object of
string-to-string mappings.  The parser below covers the JSON fragment
reachable there (standard values; `\u` escapes with surrogate pairs;
no NaN/Infinity extensions). -/

inductive Json
  | jnull
  | jbool (b : Bool)
  | jnum
  | jstr (s : Str)
  | jarr (elems : List Json)
  | jobj (kvs : List (Str × Json))

def isJsonWS (c : Char) : Bool :=
  c = ' ' ∨ c = '\t' ∨ c = '\n' ∨ c = '\r'

def isHexChar (c : Char) : Bool :=
  c.isDigit ∨ ('a' ≤ c ∧ c ≤ 'f') ∨ ('A' ≤ c ∧ c ≤ 'F')

def hexVal (c : Char) : Nat :=
  if c.isDigit then c.toNat - 48
  else if 'a' ≤ c ∧ c ≤ 'f' then c.toNat - 87
  else if 'A' ≤ c ∧ c ≤ 'F' then c.toNat - 55
  else 0

def hex4 (a b c d : Char) : Nat :=
  ((hexVal a * 16 + hexVal b) * 16 + hexVal c) * 16 + hexVal d

/-- JSON string body parser (the opening quote already consumed); returns the
decoded characters and the rest of the input. -/
def parseJString (fuel : Nat) (s : Str) : Option (Str × Str) :=
  match fuel with
  | 0 => none
  | f + 1 =>
    match s with
    | [] => none
    | c :: rest =>
      if c = '"' then some ([], rest)
      else if c = '\\' then
        match rest with
        | [] => none
        | e :: r2 =>
          if e = 'u' then
            match r2 with
            | h1 :: h2 :: h3 :: h4 :: r3 =>
              if isHexChar h1 ∧ isHexChar h2 ∧ isHexChar h3 ∧ isHexChar h4 then
                let code := hex4 h1 h2 h3 h4
                if 0xD800 ≤ code ∧ code ≤ 0xDBFF then
                  match r3 with
                  | '\\' :: 'u' :: l1 :: l2 :: l3 :: l4 :: r4 =>
                    if isHexChar l1 ∧ isHexChar l2 ∧ isHexChar l3 ∧ isHexChar l4 then
                      let lo := hex4 l1 l2 l3 l4
                      if 0xDC00 ≤ lo ∧ lo ≤ 0xDFFF then
                        (parseJString f r4).map (fun p =>
                          (Char.ofNat (0x10000 + (code - 0xD800) * 0x400 + (lo - 0xDC00)) :: p.1, p.2))
                      else none
                    else none
                  | _ => none
                else if 0xDC00 ≤ code ∧ code ≤ 0xDFFF then none
                else (parseJString f r3).map (fun p => (Char.ofNat code :: p.1, p.2))
              else none
            | _ => none
          else
            let esc : Option Char :=
              if e = '"' then some '"'
              else if e = '\\' then some '\\'
              else if e = '/' then some '/'
              else if e = 'b' then some (Char.ofNat 8)
              else if e = 'f' then some (Char.ofNat 12)
              else if e = 'n' then some '\n'
              else if e = 'r' then some '\r'
              else if e = 't' then some '\t'
              else none
            match esc with
            | none => none
            | some ch => (parseJString f r2).map (fun p => (ch :: p.1, p.2))
      else if c.toNat < 32 then none
      else (parseJString f rest).map (fun p => (c :: p.1, p.2))

/-- Lex a JSON number (value unused: the charm rejects non-string values);
returns the rest of the input on success. -/
def lexNumber (s : Str) : Option Str :=
  let afterSign := if s.head? = some '-' then s.tail else s
  let intDone : Option Str :=
    match afterSign with
    | '0' :: r => some r
    | c :: r => if c.isDigit then some (r.dropWhile Char.isDigit) else none
    | [] => none
  match intDone with
  | none => none
  | some r1 =>
    let r2 : Option Str :=
      match r1 with
      | '.' :: d :: r => if d.isDigit then some (r.dropWhile Char.isDigit) else none
      | _ => some r1
    match r2 with
    | none => none
    | some r3 =>
      match r3 with
      | e :: r4 =>
        if e = 'e' ∨ e = 'E' then
          let r5 := if r4.head? = some '+' ∨ r4.head? = some '-' then r4.tail else r4
          match r5 with
          | d :: r6 => if d.isDigit then some (r6.dropWhile Char.isDigit) else none
          | [] => none
        else some r3
      | [] => some r3

mutual

def parseJValue (fuel : Nat) (s : Str) : Option (Json × Str) :=
  match fuel with
  | 0 => none
  | f + 1 =>
    match s.dropWhile isJsonWS with
    | [] => none
    | c :: rest =>
      if c = '{' then
        match rest.dropWhile isJsonWS with
        | '}' :: r2 => some (.jobj [], r2)
        | r2 => (parseJObjItems f r2).map (fun p => (.jobj p.1, p.2))
      else if c = '[' then
        match rest.dropWhile isJsonWS with
        | ']' :: r2 => some (.jarr [], r2)
        | r2 => (parseJArrItems f r2).map (fun p => (.jarr p.1, p.2))
      else if c = '"' then
        (parseJString (rest.length + 1) rest).map (fun p => (.jstr p.1, p.2))
      else if c = 't' then
        match rest with
        | 'r' :: 'u' :: 'e' :: r2 => some (.jbool true, r2)
        | _ => none
      else if c = 'f' then
        match rest with
        | 'a' :: 'l' :: 's' :: 'e' :: r2 => some (.jbool false, r2)
        | _ => none
      else if c = 'n' then
        match rest with
        | 'u' :: 'l' :: 'l' :: r2 => some (.jnull, r2)
        | _ => none
      else if c = '-' ∨ c.isDigit then
        (lexNumber (c :: rest)).map (fun r2 => (.jnum, r2))
      else none

/-- Object members: expects `ws* "key" ws* : value ws* (, …| \x7d)`. -/
def parseJObjItems (fuel : Nat) (s : Str) : Option (List (Str × Json) × Str) :=
  match fuel with
  | 0 => none
  | f + 1 =>
    match s.dropWhile isJsonWS with
    | '"' :: rest =>
      match parseJString (rest.length + 1) rest with
      | none => none
      | some (k, r2) =>
        match r2.dropWhile isJsonWS with
        | ':' :: r3 =>
          match parseJValue f r3 with
          | none => none
          | some (v, r4) =>
            match r4.dropWhile isJsonWS with
            | ',' :: r5 => (parseJObjItems f r5).map (fun p => ((k, v) :: p.1, p.2))
            | '}' :: r5 => some ([(k, v)], r5)
            | _ => none
        | _ => none
    | _ => none

/-- Array items: a value then `,` (more items) or `]`. -/
def parseJArrItems (fuel : Nat) (s : Str) : Option (List Json × Str) :=
  match fuel with
  | 0 => none
  | f + 1 =>
    match parseJValue f s with
    | none => none
    | some (v, r) =>
      match r.dropWhile isJsonWS with
      | ',' :: r2 => (parseJArrItems f r2).map (fun p => (v :: p.1, p.2))
      | ']' :: r2 => some ([v], r2)
      | _ => none

end

/-- Model of Python `json.loads`: parse one value, allow trailing whitespace
only. -/
def jsonLoads (s : Str) : Option Json :=
  match parseJValue (s.length + 1) s with
  | some (j, rest) => if rest.dropWhile isJsonWS = [] then some j else none
  | none => none

def isJStr : Json → Bool
  | .jstr _ => true
  | _ => false

def jStrVal : Json → Str
  | .jstr s => s
  | _ => []

/-! ### Config parsers (`charm_k8s_loadbalancer.py`, lines 25-145) -/

/-- `_validate_port` (line 25): the port must lie in `[1, 65535]`; the error
message names the offending field. -/
def validate_port (name : String) (value : Int) : Except CharmError Int :=
  if 1 ≤ value ∧ value ≤ 65535 then .ok value
  else .error (.configError (name ++ " must be between 1 and 65535"))

/-- The CSV loop of `parse_selector` (lines 58-76), including the final
`if not result` check. -/
def csvLoop : List Str → Dict → Except CharmError Dict
  | [], acc =>
    if acc = [] then .error (.configError "selector must not be empty")
    else .ok acc
  | p :: rest, acc =>
    let part := stripList p
    if part = [] then csvLoop rest acc
    else
      match splitFirst '=' part with
      | none =>
        .error (.configError "selector must be in 'key=value' format (comma-separated) or JSON object")
      | some (k, v) =>
        let key := stripList k
        let value := stripList v
        if key = [] ∨ value = [] then
          .error (.configError "selector contains an empty key or value")
        else csvLoop rest (dictInsert acc key value)

/-- `parse_selector` (line 31).  A `none` argument is Python `None`.  The
JSON branch mirrors `json.loads` + the object-of-strings check; the message
of the `JSONDecodeError` interpolation is abstracted to its fixed prefix. -/
def parse_selector (raw : Option Str) : Except CharmError Dict :=
  match raw with
  | none => .error (.configError "selector must be set")
  | some r =>
    let selector := stripList r
    if selector = [] then .error (.configError "selector must not be empty")
    else if selector.head? = some '{' then
      match jsonLoads selector with
      | none => .error (.configError "selector JSON is invalid")
      | some j =>
        match j with
        | .jobj kvs =>
          if kvs.all (fun kv => isJStr kv.2) then
            let parsed := kvs.foldl (fun acc kv => dictInsert acc kv.1 (jStrVal kv.2)) []
            if parsed = [] then .error (.configError "selector must not be empty")
            else .ok parsed
          else .error (.configError "selector JSON must be an object of string:string")
        | _ => .error (.configError "selector JSON must be an object of string:string")
    else csvLoop (splitOnChar ',' selector) []

/-- `[a-z0-9]` -/
def isLowerAlnum (c : Char) : Bool := c.isLower ∨ c.isDigit

/-- One label of `_DNS1123_SUBDOMAIN_PATTERN` (line 79):
`[a-z0-9]([-a-z0-9]*[a-z0-9])?`. -/
def dns1123Label (l : Str) : Bool :=
  match l with
  | [] => false
  | [c] => isLowerAlnum c
  | c :: rest =>
    isLowerAlnum c ∧ rest.dropLast.all (fun x => isLowerAlnum x ∨ x = '-')
      ∧ (rest.getLast?.map isLowerAlnum).getD false

/-- `_DNS1123_SUBDOMAIN_PATTERN`: dot-separated non-empty labels. -/
def dns1123Subdomain (s : Str) : Bool :=
  (splitOnChar '.' s).all dns1123Label

/-- `_QUALIFIED_NAME_PATTERN` (line 82):
`[A-Za-z0-9]([-A-Za-z0-9_.]*[A-Za-z0-9])?`. -/
def qualNameBody (l : Str) : Bool :=
  match l with
  | [] => false
  | [c] => c.isAlphanum
  | c :: rest =>
    c.isAlphanum ∧ rest.dropLast.all (fun x => x.isAlphanum ∨ x = '-' ∨ x = '_' ∨ x = '.')
      ∧ (rest.getLast?.map Char.isAlphanum).getD false

/-- Python `re` `$` semantics: a pattern anchored with `^...$` matches a
string iff the core matches the whole string, or the string ends in a single
newline and the core matches everything before it (`$` also matches just
before a trailing newline). -/
def reDollarMatch (core : Str → Bool) (s : Str) : Bool :=
  core s ∨ (s.getLast? = some '\n' ∧ core s.dropLast)

/-- `_is_valid_annotation_key` (line 85): length at most 253, at most one `/`,
a non-empty DNS-1123-subdomain part before the `/` when present, and a
1-63-character qualified name. -/
def is_valid_annotation_key (key : Str) : Bool :=
  if key = [] ∨ 253 < key.length then false
  else
    let parts := splitOnChar '/' key
    if 2 < parts.length then false
    else
      match parts with
      | [pfx, nm] =>
        if pfx = [] ∨ ¬ reDollarMatch dns1123Subdomain pfx then false
        else nm ≠ [] ∧ nm.length ≤ 63 ∧ reDollarMatch qualNameBody nm
      | [nm] => nm ≠ [] ∧ nm.length ≤ 63 ∧ reDollarMatch qualNameBody nm
      | _ => false

/-- Python `repr` of a string (ASCII-printable fragment): single quotes,
double quotes when the string holds a single quote and no double quote,
backslash-escaping the quote character and backslashes. -/
def pyRepr (s : Str) : String :=
  let squote : Char := Char.ofNat 39
  let dquote : Char := '"'
  let q := if s.contains squote ∧ ¬ s.contains dquote then dquote else squote
  let body := s.flatMap (fun c => if c = '\\' ∨ c = q then ['\\', c] else [c])
  String.mk (q :: body ++ [q])

/-- The loop of `parse_annotations` (lines 117-129). -/
def annLoop : List Str → Dict → Except CharmError Dict
  | [], acc => .ok acc
  | pair :: rest, acc =>
    match splitFirst '=' pair with
    | none =>
      .error (.configError "loadbalancer-annotations must be in 'key=value' format (comma-separated)")
    | some (k, v) =>
      let key := stripList k
      let value := stripList v
      if is_valid_annotation_key key then annLoop rest (dictInsert acc key value)
      else .error (.configError ("invalid annotation key: " ++ pyRepr key))

/-- `parse_annotations` (line 105): `None`, empty or whitespace-only input
(after stripping trailing commas) yields the empty map; otherwise each
non-empty trimmed comma-separated segment is processed by `annLoop`. -/
def parse_annotations (raw : Option Str) : Except CharmError Dict :=
  match raw with
  | none => .ok []
  | some r =>
    let text := rstripCommas (stripList r)
    if text = [] then .ok []
    else annLoop (((splitOnChar ',' text).map stripList).filter (fun p => p ≠ [])) []

/-! ### Model of the stdlib collaborator `ipaddress.ip_address`

IPv4 dotted quads (no leading zeros, each octet at most 255) and IPv6 text
forms (`::` compression, optional embedded trailing IPv4, no zone
identifiers), normalised the way CPython prints them (RFC 5952-style
compression of the leftmost longest zero run of length at least two). -/

inductive IpAddr
  | v4 (a b c d : Nat)
  | v6 (gs : List Nat)
deriving DecidableEq

def digitsToNat (l : Str) : Nat :=
  l.foldl (fun acc c => acc * 10 + (c.toNat - 48)) 0

def hexToNat (l : Str) : Nat :=
  l.foldl (fun acc c => acc * 16 + hexVal c) 0

/-- One IPv4 octet: 1-3 digits, no leading zero, value at most 255. -/
def parseOctet (p : Str) : Option Nat :=
  if p ≠ [] ∧ p.length ≤ 3 ∧ p.all Char.isDigit ∧ (p.length = 1 ∨ p.head? ≠ some '0') then
    let n := digitsToNat p
    if n ≤ 255 then some n else none
  else none

def parseIPv4Quad (s : Str) : Option (Nat × Nat × Nat × Nat) :=
  match splitOnChar '.' s with
  | [a, b, c, d] =>
    match parseOctet a, parseOctet b, parseOctet c, parseOctet d with
    | some x, some y, some z, some w => some (x, y, z, w)
    | _, _, _, _ => none
  | _ => none

/-- One IPv6 group: 1-4 hex digits. -/
def parseHexGroup (p : Str) : Option Nat :=
  if p ≠ [] ∧ p.length ≤ 4 ∧ p.all isHexChar then some (hexToNat p) else none

/-- Split at the first `::`, when present. -/
def findDoubleColon : Str → Option (Str × Str)
  | [] => none
  | ':' :: ':' :: rest => some ([], rest)
  | c :: rest => (findDoubleColon (c :: rest).tail).map (fun p => (c :: p.1, p.2))

/-- Colon-separated hex groups, no embedded IPv4 (the part left of `::`). -/
def parseGroupsNoV4 (s : Str) : Option (List Nat) :=
  if s = [] then some [] else (splitOnChar ':' s).mapM parseHexGroup

/-- Colon-separated hex groups where the last group may be a dotted quad
(contributing two 16-bit groups). -/
def parseGroupsV4 (s : Str) : Option (List Nat) :=
  if s = [] then some []
  else
    let parts := splitOnChar ':' s
    match parts.getLast? with
    | none => some []
    | some lastPart =>
      if lastPart.contains '.' then
        match parseIPv4Quad lastPart, parts.dropLast.mapM parseHexGroup with
        | some (a, b, c, d), some gs => some (gs ++ [a * 256 + b, c * 256 + d])
        | _, _ => none
      else parts.mapM parseHexGroup

def parseIPv6 (s : Str) : Option (List Nat) :=
  match findDoubleColon s with
  | some (l, r) =>
    if (findDoubleColon r).isSome then none
    else
      match parseGroupsNoV4 l, parseGroupsV4 r with
      | some gl, some gr =>
        if gl.length + gr.length ≤ 7 then
          some (gl ++ List.replicate (8 - gl.length - gr.length) 0 ++ gr)
        else none
      | _, _ => none
  | none =>
    match parseGroupsV4 s with
    | some gs => if gs.length = 8 then some gs else none
    | none => none

/-- `ipaddress.ip_address`: try IPv4 first, then IPv6. -/
def ip_address (s : Str) : Option IpAddr :=
  match parseIPv4Quad s with
  | some (a, b, c, d) => some (.v4 a b c d)
  | none =>
    match parseIPv6 s with
    | some gs => some (.v6 gs)
    | none => none

def decDigit (n : Nat) : Char := Char.ofNat (48 + n)

def natToDecAux : Nat → Nat → Str → Str
  | 0, _, acc => acc
  | f + 1, n, acc => if n = 0 then acc else natToDecAux f (n / 10) (decDigit (n % 10) :: acc)

/-- Decimal rendering of an octet. -/
def natToDec (n : Nat) : Str :=
  if n = 0 then ['0'] else natToDecAux 4 n []

def hexDigitChar (n : Nat) : Char :=
  if n < 10 then Char.ofNat (48 + n) else Char.ofNat (87 + n)

def natToHexAux : Nat → Nat → Str → Str
  | 0, _, acc => acc
  | f + 1, n, acc => if n = 0 then acc else natToHexAux f (n / 16) (hexDigitChar (n % 16) :: acc)

/-- Lowercase hex rendering of a 16-bit group, no leading zeros. -/
def natToHex (n : Nat) : Str :=
  if n = 0 then ['0'] else natToHexAux 5 n []

/-- Zero runs `(start, length)` of a group list. -/
def zeroRunsAux : List Nat → Nat → Nat → List (Nat × Nat)
  | [], i, cur => if 1 ≤ cur then [(i - cur, cur)] else []
  | x :: rest, i, cur =>
    if x = 0 then zeroRunsAux rest (i + 1) (cur + 1)
    else (if 1 ≤ cur then [(i - cur, cur)] else []) ++ zeroRunsAux rest (i + 1) 0

/-- The leftmost longest zero run of length at least two (CPython compresses
only such runs, first-longest-wins). -/
def pickBest : List (Nat × Nat) → Option (Nat × Nat)
  | [] => none
  | (s, l) :: rest =>
    match pickBest rest with
    | none => if 2 ≤ l then some (s, l) else none
    | some (s2, l2) => if 2 ≤ l ∧ l2 ≤ l then some (s, l) else some (s2, l2)

def bestZeroRun (gs : List Nat) : Option (Nat × Nat) :=
  pickBest (zeroRunsAux gs 0 0)

/-- `str()` of a parsed address, as CPython renders it. -/
def ipToText : IpAddr → Str
  | .v4 a b c d =>
    natToDec a ++ '.' :: natToDec b ++ '.' :: natToDec c ++ '.' :: natToDec d
  | .v6 gs =>
    match bestZeroRun gs with
    | some (st, len) =>
      joinWith [':'] ((gs.take st).map natToHex) ++ ':' :: ':'
        :: joinWith [':'] ((gs.drop (st + len)).map natToHex)
    | none => joinWith [':'] (gs.map natToHex)

/-- `parse_fixed_ip` (line 132): `None` or blank input is "unset"; otherwise
the text must parse as an IP address and is returned normalised. -/
def parse_fixed_ip (raw : Option Str) : Except CharmError (Option Str) :=
  match raw with
  | none => .ok none
  | some r =>
    let text := stripList r
    if text = [] then .ok none
    else
      match ip_address text with
      | some ip => .ok (some (ipToText ip))
      | none => .error (.configError "fixed-ip must be a valid IPv4 or IPv6 address")

/-! ### Service objects and the reconciler
(`charm_k8s_loadbalancer.py`, lines 148-261).  The lightkube dataclasses are
embedded structurally; the dynamic import guards always succeed in the model
(the dependency is packaged with the charm). -/

structure ServicePort where
  port : Int
  targetPort : Int
  protocol : String
  name : String
deriving DecidableEq

structure ServiceSpec where
  type : String
  loadBalancerIP : Option Str
  selector : Dict
  ports : List ServicePort
deriving DecidableEq

structure ObjectMeta where
  name : Str
  nspace : Str
  labels : Dict
  annotations : Option Dict
deriving DecidableEq

structure Service where
  metadata : ObjectMeta
  spec : ServiceSpec
deriving DecidableEq

/-- `ServiceConfig` (line 148). -/
structure ServiceConfig where
  name : Str
  nspace : Str
  selector : Dict
  target_port : Int
  lb_port : Int
  annotations : Dict
  fixed_ip : Option Str
deriving DecidableEq

/-- `_build_service` (line 159).  Python truthiness: `cfg.annotations or None`
turns an empty dict into `None`; `cfg.fixed_ip or None` turns an empty string
into `None`. -/
def build_service (cfg : ServiceConfig) : Service :=
  { metadata :=
      { name := cfg.name
        nspace := cfg.nspace
        labels := [("app.kubernetes.io/name".data, cfg.name)]
        annotations := if cfg.annotations = [] then none else some cfg.annotations }
    spec :=
      { type := "LoadBalancer"
        loadBalancerIP :=
          match cfg.fixed_ip with
          | some s => if s = [] then none else some s
          | none => none
        selector := cfg.selector
        ports := [{ port := cfg.lb_port, targetPort := cfg.target_port,
                    protocol := "TCP", name := "lb" }] } }

/-- The validation prefix of `ensure_loadbalancer_service` (lines 203-221):
re-checks the inputs even when the caller bypassed the parsers, then builds
the `ServiceConfig` with the derived `<app_name>-lb` name. -/
def validateConfig (app_name nspace : Str) (selector : Dict)
    (target_port lb_port : Int) (annotations : Option Dict)
    (fixed_ip : Option Str) : Except CharmError ServiceConfig :=
  if app_name = [] then .error (.configError "app_name must not be empty")
  else if nspace = [] then .error (.configError "namespace must not be empty")
  else if selector = [] then .error (.configError "selector must not be empty")
  else
    match validate_port "target-port" target_port with
    | .error e => .error e
    | .ok tp =>
      match validate_port "lb-port" lb_port with
      | .error e => .error e
      | .ok lp =>
        match parse_fixed_ip fixed_ip with
        | .error e => .error e
        | .ok fip =>
          .ok { name := app_name ++ "-lb".data
                nspace := nspace
                selector := selector
                target_port := tp
                lb_port := lp
                annotations := annotations.getD []
                fixed_ip := fip }

/-- A response of the cluster API to a single call: lightkube either returns
normally or raises an `ApiError` carrying an HTTP status code. -/
inductive ApiResp
  | ok
  | err (e : ApiErr)
deriving DecidableEq

/-- The abstract lightkube client for `ensure_loadbalancer_service`: how the
cluster answers a `create` and a `replace` of a given object. -/
structure Client where
  createResp : Service → ApiResp
  replaceResp : Service → ApiResp

/-- The API calls `ensure_loadbalancer_service` issues, in order. -/
inductive ApiCall
  | createCall (svc : Service)
  | replaceCall (svc : Service)
deriving DecidableEq

/-- `ensure_loadbalancer_service` (line 192) against an abstract client,
instrumented with the list of API calls made: validate, build the desired
object, `create`, and on a 409 conflict fall back to `replace` with the same
object; any other `ApiError` propagates. -/
def ensure_loadbalancer_service (c : Client) (app_name nspace : Str)
    (selector : Dict) (target_port lb_port : Int) (annotations : Option Dict)
    (fixed_ip : Option Str) : Except CharmError Unit × List ApiCall :=
  match validateConfig app_name nspace selector target_port lb_port annotations fixed_ip with
  | .error e => (.error e, [])
  | .ok cfg =>
    let svc := build_service cfg
    match c.createResp svc with
    | .ok => (.ok (), [.createCall svc])
    | .err e =>
      if e.code ≠ 409 then (.error (.apiError e), [.createCall svc])
      else
        match c.replaceResp svc with
        | .ok => (.ok (), [.createCall svc, .replaceCall svc])
        | .err e2 => (.error (.apiError e2), [.createCall svc, .replaceCall svc])

/-- The abstract client for `delete_loadbalancer_service`: how the cluster
answers deleting the Service with a given name in a given namespace. -/
structure DelClient where
  deleteResp : Str → Str → ApiResp

/-- `delete_loadbalancer_service` (line 243) against an abstract client,
instrumented with the (name, namespace) pairs it deletes: a 404 is treated as
success, any other `ApiError` propagates. -/
def delete_loadbalancer_service (c : DelClient) (app_name nspace : Str) :
    Except CharmError Unit × List (Str × Str) :=
  let name := app_name ++ "-lb".data
  match c.deleteResp name nspace with
  | .ok => (.ok (), [(name, nspace)])
  | .err e =>
    if e.code = 404 then (.ok (), [(name, nspace)])
    else (.error (.apiError e), [(name, nspace)])

/-! ### Deterministic cluster semantics

The cluster is a partial map from (namespace, name) to the stored Service
object, with the collaborator contract of the spec: `Create` fails with 409
when the key exists, `Replace` fails with 404 when it does not, `Delete`
fails with 404 when it does not. -/

abbrev Cluster := Str × Str → Option Service

def setObj (cl : Cluster) (k : Str × Str) (v : Option Service) : Cluster :=
  fun k' => if k' = k then v else cl k'

def clusterCreate (cl : Cluster) (svc : Service) : Cluster × ApiResp :=
  let k := (svc.metadata.nspace, svc.metadata.name)
  match cl k with
  | some _ => (cl, .err ⟨409, "already exists"⟩)
  | none => (setObj cl k (some svc), .ok)

def clusterReplace (cl : Cluster) (svc : Service) : Cluster × ApiResp :=
  let k := (svc.metadata.nspace, svc.metadata.name)
  match cl k with
  | some _ => (setObj cl k (some svc), .ok)
  | none => (cl, .err ⟨404, "not found"⟩)

def clusterDelete (cl : Cluster) (name nspace : Str) : Cluster × ApiResp :=
  let k := (nspace, name)
  match cl k with
  | some _ => (setObj cl k none, .ok)
  | none => (cl, .err ⟨404, "not found"⟩)

/-- `ensure_loadbalancer_service` run against the deterministic cluster,
threading the cluster state through the calls the code makes. -/
def runEnsure (cl : Cluster) (app_name nspace : Str) (selector : Dict)
    (target_port lb_port : Int) (annotations : Option Dict)
    (fixed_ip : Option Str) : Cluster × Except CharmError Unit :=
  match validateConfig app_name nspace selector target_port lb_port annotations fixed_ip with
  | .error e => (cl, .error e)
  | .ok cfg =>
    let svc := build_service cfg
    match clusterCreate cl svc with
    | (cl2, .ok) => (cl2, .ok ())
    | (cl2, .err e) =>
      if e.code ≠ 409 then (cl2, .error (.apiError e))
      else
        match clusterReplace cl2 svc with
        | (cl3, .ok) => (cl3, .ok ())
        | (cl3, .err e2) => (cl3, .error (.apiError e2))

/-- `delete_loadbalancer_service` run against the deterministic cluster. -/
def runDelete (cl : Cluster) (app_name nspace : Str) :
    Cluster × Except CharmError Unit :=
  let name := app_name ++ "-lb".data
  match clusterDelete cl name nspace with
  | (cl2, .ok) => (cl2, .ok ())
  | (cl2, .err e) =>
    if e.code = 404 then (cl2, .ok ())
    else (cl2, .error (.apiError e))

/-- The operations the caller can invoke, as steps of a state machine over
the cluster. -/
inductive Op
  | reconcile (app_name nspace : Str) (selector : Dict)
      (target_port lb_port : Int) (annotations : Option Dict)
      (fixed_ip : Option Str)
  | del (app_name nspace : Str)

def stepCluster (cl : Cluster) : Op → Cluster
  | .reconcile a n s tp lp an f => (runEnsure cl a n s tp lp an f).1
  | .del a n => (runDelete cl a n).1

def runTrace (cl : Cluster) : List Op → Cluster
  | [] => cl
  | op :: ops => runTrace (stepCluster cl op) ops

/-- The observable abstraction of one application's Service slot: a
successfully validated reconcile targeting this (namespace, app) stores the
desired object, a delete targeting it clears the slot, and every other
operation leaves it alone. -/
def stepObserved (app_name nspace : Str) (cur : Option Service) :
    Op → Option Service
  | .reconcile a n s tp lp an f =>
    match validateConfig a n s tp lp an f with
    | .ok cfg =>
      if cfg.nspace = nspace ∧ cfg.name = app_name ++ "-lb".data then
        some (build_service cfg)
      else cur
    | .error _ => cur
  | .del a n =>
    if n = nspace ∧ a ++ "-lb".data = app_name ++ "-lb".data then none
    else cur

def observedTrace (app_name nspace : Str) (cur : Option Service) :
    List Op → Option Service
  | [] => cur
  | op :: ops => observedTrace app_name nspace (stepObserved app_name nspace cur op) ops

/-! ### Specification-side reference definitions

These re-state sentences of the specification in their own words, to be
compared with the code-side definitions above. -/

/-- The CSV selector segments as the spec reads them: trim each segment, skip
empty ones, split each remaining segment at its first `=` into a trimmed key
and a trimmed value, both required non-empty; `none` when some segment is not
of that shape. -/
def csvPairs : List Str → Option (List (Str × Str))
  | [] => some []
  | p :: rest =>
    let t := stripList p
    if t = [] then csvPairs rest
    else
      match splitFirst '=' t with
      | none => none
      | some (k, v) =>
        let key := stripList k
        let value := stripList v
        if key = [] ∨ value = [] then none
        else (csvPairs rest).map (fun ps => (key, value) :: ps)

/-- Build the map from a pair list, later pairs overriding earlier ones
(duplicate keys keep the last value). -/
def insAll (acc : Dict) (ps : List (Str × Str)) : Dict :=
  ps.foldl (fun a kv => dictInsert a kv.1 kv.2) acc

/-! ### Helper lemmas -/

theorem dropWhile_head_false {p : Char → Bool} :
    ∀ (l : Str) (c : Char), (l.dropWhile p).head? = some c → p c = false := by
  intro l
  induction l with
  | nil => intro c h; simp [List.dropWhile] at h
  | cons x xs ih =>
    intro c h
    rw [List.dropWhile_cons] at h
    by_cases hp : p x
    · simp [hp] at h; exact ih c h
    · simp [hp] at h
      simp at hp
      rw [← h]
      exact hp

theorem dropWhile_idem {p : Char → Bool} (l : Str) :
    (l.dropWhile p).dropWhile p = l.dropWhile p := by
  cases h : l.dropWhile p with
  | nil => rfl
  | cons x xs =>
    have hx : p x = false := by
      have := dropWhile_head_false (p := p) l x
      simp [h] at this
      exact this
    simp [List.dropWhile_cons, hx]

theorem getLast?_dropWhile_of_some {p : Char → Bool} :
    ∀ (l : Str) (c : Char), (l.dropWhile p).getLast? = some c → l.getLast? = some c := by
  intro l
  induction l with
  | nil => intro c h; simp [List.dropWhile] at h
  | cons x xs ih =>
    intro c h
    rw [List.dropWhile_cons] at h
    by_cases hp : p x
    · simp [hp] at h
      have hxs := ih c h
      cases xs with
      | nil => simp at hxs
      | cons y ys => rw [List.getLast?_cons_cons]; exact hxs
    · simpa [hp] using h

theorem stripList_head_not_space (l : Str) (c : Char)
    (h : (stripList l).head? = some c) : isPySpace c = false := by
  unfold stripList at h
  rw [List.head?_reverse] at h
  have h2 := getLast?_dropWhile_of_some _ c h
  rw [List.getLast?_reverse] at h2
  exact dropWhile_head_false _ c h2

theorem stripList_getLast_not_space (l : Str) (c : Char)
    (h : (stripList l).getLast? = some c) : isPySpace c = false := by
  unfold stripList at h
  rw [List.getLast?_reverse] at h
  exact dropWhile_head_false _ c h

theorem stripList_eq_self (s : Str)
    (h1 : ∀ c, s.head? = some c → isPySpace c = false)
    (h2 : ∀ c, s.getLast? = some c → isPySpace c = false) :
    stripList s = s := by
  unfold stripList
  have hd : s.dropWhile isPySpace = s := by
    cases s with
    | nil => rfl
    | cons x xs =>
      have := h1 x (by simp)
      simp [List.dropWhile_cons, this]
  rw [hd]
  have hr : s.reverse.dropWhile isPySpace = s.reverse := by
    cases hrev : s.reverse with
    | nil => rfl
    | cons x xs =>
      have hx : s.getLast? = some x := by
        rw [← List.head?_reverse, hrev]; rfl
      have := h2 x hx
      simp [List.dropWhile_cons, this]
  rw [hr, List.reverse_reverse]

theorem stripList_idem (l : Str) : stripList (stripList l) = stripList l :=
  stripList_eq_self _ (stripList_head_not_space l) (stripList_getLast_not_space l)

theorem dictInsert_ne_nil (d : Dict) (k v : Str) : dictInsert d k v ≠ [] := by
  unfold dictInsert
  by_cases h : d.any (fun kv => kv.1 = k)
  · cases d with
    | nil => simp at h
    | cons x xs => simp [h]
  · simp [h]

theorem dictInsert_mem {P : Str × Str → Prop} {d : Dict} {k v : Str}
    (hd : ∀ kv ∈ d, P kv) (hkv : P (k, v)) :
    ∀ kv ∈ dictInsert d k v, P kv := by
  intro kv hmem
  unfold dictInsert at hmem
  by_cases h : d.any (fun kv => kv.1 = k)
  · rw [if_pos h] at hmem
    rcases List.mem_map.mp hmem with ⟨x, hx, hkv'⟩
    by_cases hk : x.1 = k
    · rw [if_pos hk] at hkv'; rw [← hkv']; exact hkv
    · rw [if_neg hk] at hkv'; rw [← hkv']; exact hd x hx
  · rw [if_neg h] at hmem
    rcases List.mem_append.mp hmem with hmem | hmem
    · exact hd kv hmem
    · rw [List.mem_singleton.mp hmem]; exact hkv

theorem insAll_ne_nil : ∀ (ps : List (Str × Str)) (acc : Dict),
    (acc ≠ [] ∨ ps ≠ []) → insAll acc ps ≠ [] := by
  intro ps
  induction ps with
  | nil =>
    intro acc h
    rcases h with h | h
    · simpa [insAll] using h
    · simp at h
  | cons kv rest ih =>
    intro acc _
    show insAll (dictInsert acc kv.1 kv.2) rest ≠ []
    exact ih _ (Or.inl (dictInsert_ne_nil _ _ _))

/-- The CSV loop of the code computes exactly the spec-side pair list:
when every segment is well-formed, the result is the last-wins map of the
trimmed pairs (or the "empty selector" error when no pair survives). -/
theorem csvLoop_of_pairs : ∀ (segs : List Str) (acc : Dict) (ps : List (Str × Str)),
    csvPairs segs = some ps →
    csvLoop segs acc =
      (if insAll acc ps = [] then .error (.configError "selector must not be empty")
       else .ok (insAll acc ps)) := by
  intro segs
  induction segs with
  | nil =>
    intro acc ps h
    simp only [csvPairs, Option.some_inj] at h
    subst h
    rfl
  | cons p rest ih =>
    intro acc ps h
    simp only [csvPairs] at h
    rw [csvLoop]
    by_cases ht : stripList p = []
    · rw [if_pos ht] at h
      rw [if_pos ht]
      exact ih acc ps h
    · rw [if_neg ht] at h
      rw [if_neg ht]
      cases hsp : splitFirst '=' (stripList p) with
      | none => rw [hsp] at h; simp at h
      | some kv =>
        rw [hsp] at h
        obtain ⟨k, v⟩ := kv
        dsimp only at h ⊢
        by_cases hkv : stripList k = [] ∨ stripList v = []
        · rw [if_pos hkv] at h; simp at h
        · rw [if_neg hkv] at h
          cases hrest : csvPairs rest with
          | none => rw [hrest] at h; simp at h
          | some ps' =>
            rw [hrest] at h
            simp only [Option.map_some', Option.some_inj] at h
            subst h
            rw [if_neg hkv]
            exact ih (dictInsert acc (stripList k) (stripList v)) ps' hrest

/-- When some segment is malformed, the CSV loop fails with a
`ConfigError`. -/
theorem csvLoop_err_of_none : ∀ (segs : List Str) (acc : Dict),
    csvPairs segs = none →
    ∃ m, csvLoop segs acc = .error (.configError m) := by
  intro segs
  induction segs with
  | nil => intro acc h; simp [csvPairs] at h
  | cons p rest ih =>
    intro acc h
    simp only [csvPairs] at h
    rw [csvLoop]
    by_cases ht : stripList p = []
    · rw [if_pos ht] at h
      rw [if_pos ht]
      exact ih acc h
    · rw [if_neg ht] at h
      rw [if_neg ht]
      cases hsp : splitFirst '=' (stripList p) with
      | none => exact ⟨_, rfl⟩
      | some kv =>
        rw [hsp] at h
        obtain ⟨k, v⟩ := kv
        dsimp only at h ⊢
        by_cases hkv : stripList k = [] ∨ stripList v = []
        · rw [if_pos hkv]
          exact ⟨_, rfl⟩
        · rw [if_neg hkv] at h
          rw [if_neg hkv]
          cases hrest : csvPairs rest with
          | none => exact ih _ hrest
          | some ps' => rw [hrest] at h; simp at h

/-- An ok result of the CSV loop is the final accumulator, which the loop
checked non-empty. -/
theorem csvLoop_ok_ne_nil : ∀ (segs : List Str) (acc d : Dict),
    csvLoop segs acc = .ok d → d ≠ [] := by
  intro segs
  induction segs with
  | nil =>
    intro acc d h
    rw [csvLoop] at h
    by_cases ha : acc = []
    · rw [if_pos ha] at h; simp at h
    · rw [if_neg ha] at h
      simp only [Except.ok.injEq] at h
      rwa [← h]
  | cons p rest ih =>
    intro acc d h
    rw [csvLoop] at h
    by_cases ht : stripList p = []
    · rw [if_pos ht] at h; exact ih acc d h
    · rw [if_neg ht] at h
      cases hsp : splitFirst '=' (stripList p) with
      | none => rw [hsp] at h; simp at h
      | some kv =>
        rw [hsp] at h
        obtain ⟨k, v⟩ := kv
        dsimp only at h
        by_cases hkv : stripList k = [] ∨ stripList v = []
        · rw [if_pos hkv] at h; simp at h
        · rw [if_neg hkv] at h; exact ih _ d h

/-- Entries produced by the CSV loop satisfy any property holding for the
initial accumulator and preserved by trimmed non-empty insertions. -/
theorem csvLoop_entries (P : Str × Str → Prop) :
    ∀ (segs : List Str) (acc d : Dict),
    csvLoop segs acc = .ok d →
    (∀ kv ∈ acc, P kv) →
    (∀ k v, stripList k = k → stripList v = v → k ≠ [] → v ≠ [] → P (k, v)) →
    ∀ kv ∈ d, P kv := by
  intro segs
  induction segs with
  | nil =>
    intro acc d h hacc _
    rw [csvLoop] at h
    by_cases ha : acc = []
    · rw [if_pos ha] at h; simp at h
    · rw [if_neg ha] at h
      simp only [Except.ok.injEq] at h
      rw [← h]
      exact hacc
  | cons p rest ih =>
    intro acc d h hacc hP
    rw [csvLoop] at h
    by_cases ht : stripList p = []
    · rw [if_pos ht] at h; exact ih acc d h hacc hP
    · rw [if_neg ht] at h
      cases hsp : splitFirst '=' (stripList p) with
      | none => rw [hsp] at h; simp at h
      | some kv =>
        rw [hsp] at h
        obtain ⟨k, v⟩ := kv
        dsimp only at h
        by_cases hkv : stripList k = [] ∨ stripList v = []
        · rw [if_pos hkv] at h; simp at h
        · rw [if_neg hkv] at h
          push_neg at hkv
          exact ih _ d h
            (dictInsert_mem hacc
              (hP _ _ (stripList_idem k) (stripList_idem v) hkv.1 hkv.2))
            hP

/-- A malformed segment (no `=`, or an empty trimmed key or value) forces
the spec-side pair list to fail. -/
theorem csvPairs_none_of_bad : ∀ (segs : List Str) (seg : Str), seg ∈ segs →
    stripList seg ≠ [] →
    (splitFirst '=' (stripList seg) = none ∨
      (∃ k v, splitFirst '=' (stripList seg) = some (k, v) ∧
        (stripList k = [] ∨ stripList v = []))) →
    csvPairs segs = none := by
  intro segs
  induction segs with
  | nil => intro seg h; simp at h
  | cons p rest ih =>
    intro seg hmem hne hbad
    simp only [csvPairs]
    rcases List.mem_cons.mp hmem with heq | hmem'
    · subst heq
      rw [if_neg hne]
      rcases hbad with hbad | ⟨k, v, hsp, hkv⟩
      · rw [hbad]
      · rw [hsp]
        dsimp only
        rw [if_pos hkv]
    · by_cases ht : stripList p = []
      · rw [if_pos ht]
        exact ih seg hmem' hne hbad
      · rw [if_neg ht]
        cases hsp : splitFirst '=' (stripList p) with
        | none => rfl
        | some kv =>
          obtain ⟨k, v⟩ := kv
          dsimp only
          by_cases hkv : stripList k = [] ∨ stripList v = []
          · rw [if_pos hkv]
          · rw [if_neg hkv, ih seg hmem' hne hbad]
            rfl


theorem insAll_mem {P : Str × Str → Prop} :
    ∀ (ps : List (Str × Str)) (acc : Dict),
    (∀ kv ∈ acc, P kv) → (∀ kv ∈ ps, P kv) →
    ∀ kv ∈ insAll acc ps, P kv := by
  intro ps
  induction ps with
  | nil => intro acc hacc _; simpa [insAll] using hacc
  | cons x rest ih =>
    intro acc hacc hps
    show ∀ kv ∈ insAll (dictInsert acc x.1 x.2) rest, P kv
    exact ih _ (dictInsert_mem hacc (by simpa using hps x (by simp)))
      (fun kv hkv => hps kv (by simp [hkv]))

/-- `parse_selector` in its CSV branch is exactly the CSV loop over the
comma-split trimmed input. -/
theorem parse_selector_csv_branch (r : Str) (hs : stripList r ≠ [])
    (hb : (stripList r).head? ≠ some '{') :
    parse_selector (some r) = csvLoop (splitOnChar ',' (stripList r)) [] := by
  unfold parse_selector
  dsimp only
  rw [if_neg hs, if_neg hb]

/-- A map returned by `parse_selector` is never empty: the CSV loop and the
JSON branch both reject a decoded selector with zero entries. -/
theorem parse_selector_ok_ne_nil (raw : Option Str) (d : Dict)
    (h : parse_selector raw = .ok d) : d ≠ [] := by
  unfold parse_selector at h
  cases raw with
  | none => simp at h
  | some r =>
    dsimp only at h
    by_cases hs : stripList r = []
    · rw [if_pos hs] at h; simp at h
    · rw [if_neg hs] at h
      by_cases hb : (stripList r).head? = some '{'
      · rw [if_pos hb] at h
        cases hj : jsonLoads (stripList r) with
        | none => rw [hj] at h; simp at h
        | some j =>
          rw [hj] at h
          cases j with
          | jnull => simp at h
          | jbool b => simp at h
          | jnum => simp at h
          | jstr s => simp at h
          | jarr elems => simp at h
          | jobj kvs =>
            dsimp only at h
            by_cases hall : kvs.all (fun kv => isJStr kv.2)
            · rw [if_pos hall] at h
              by_cases hp : kvs.foldl (fun acc kv => dictInsert acc kv.1 (jStrVal kv.2)) [] = []
              · rw [if_pos hp] at h; simp at h
              · rw [if_neg hp] at h
                simp only [Except.ok.injEq] at h
                rwa [← h]
            · rw [if_neg hall] at h; simp at h
      · rw [if_neg hb] at h
        exact csvLoop_ok_ne_nil _ _ _ h

/-- The only error `parse_fixed_ip` raises is the `ConfigError` naming the
field. -/
theorem parse_fixed_ip_err_shape (f : Option Str) (e : CharmError)
    (h : parse_fixed_ip f = .error e) :
    e = .configError "fixed-ip must be a valid IPv4 or IPv6 address" := by
  unfold parse_fixed_ip at h
  cases f with
  | none => simp at h
  | some r =>
    dsimp only at h
    by_cases ht : stripList r = []
    · rw [if_pos ht] at h; simp at h
    · rw [if_neg ht] at h
      cases hip : ip_address (stripList r) with
      | some ip => rw [hip] at h; simp at h
      | none =>
        rw [hip] at h
        simp only [Except.error.injEq] at h
        exact h.symm

/-- Shape of a successful validation: all the checks passed, and the
resulting `ServiceConfig` carries the derived name, the inputs, and the
normalised fixed IP. -/
theorem validateConfig_ok_shape (a n : Str) (s : Dict) (tp lp : Int)
    (an : Option Dict) (f : Option Str) (cfg : ServiceConfig)
    (h : validateConfig a n s tp lp an f = .ok cfg) :
    a ≠ [] ∧ n ≠ [] ∧ s ≠ [] ∧ (1 ≤ tp ∧ tp ≤ 65535) ∧ (1 ≤ lp ∧ lp ≤ 65535)
      ∧ parse_fixed_ip f = .ok cfg.fixed_ip
      ∧ cfg = { name := a ++ "-lb".data, nspace := n, selector := s,
                target_port := tp, lb_port := lp,
                annotations := an.getD [], fixed_ip := cfg.fixed_ip } := by
  unfold validateConfig validate_port at h
  by_cases ha : a = []
  · rw [if_pos ha] at h; simp at h
  · rw [if_neg ha] at h
    by_cases hn : n = []
    · rw [if_pos hn] at h; simp at h
    · rw [if_neg hn] at h
      by_cases hsel : s = []
      · rw [if_pos hsel] at h; simp at h
      · rw [if_neg hsel] at h
        by_cases htp : 1 ≤ tp ∧ tp ≤ 65535
        · rw [if_pos htp] at h
          dsimp only at h
          by_cases hlp : 1 ≤ lp ∧ lp ≤ 65535
          · rw [if_pos hlp] at h
            dsimp only at h
            cases hf : parse_fixed_ip f with
            | error e => rw [hf] at h; simp at h
            | ok fip =>
              rw [hf] at h
              dsimp only at h
              simp only [Except.ok.injEq] at h
              subst h
              exact ⟨ha, hn, hsel, htp, hlp, rfl, rfl⟩
          · rw [if_neg hlp] at h; dsimp only at h; simp at h
        · rw [if_neg htp] at h; dsimp only at h; simp at h

/-- The only errors validation raises are `ConfigError`s. -/
theorem validateConfig_err_shape (a n : Str) (s : Dict) (tp lp : Int)
    (an : Option Dict) (f : Option Str) (e : CharmError)
    (h : validateConfig a n s tp lp an f = .error e) :
    ∃ m, e = .configError m := by
  unfold validateConfig validate_port at h
  by_cases ha : a = []
  · rw [if_pos ha] at h
    exact ⟨_, (Except.error.injEq _ _).mp h.symm⟩
  · rw [if_neg ha] at h
    by_cases hn : n = []
    · rw [if_pos hn] at h
      exact ⟨_, (Except.error.injEq _ _).mp h.symm⟩
    · rw [if_neg hn] at h
      by_cases hsel : s = []
      · rw [if_pos hsel] at h
        exact ⟨_, (Except.error.injEq _ _).mp h.symm⟩
      · rw [if_neg hsel] at h
        by_cases htp : 1 ≤ tp ∧ tp ≤ 65535
        · rw [if_pos htp] at h
          dsimp only at h
          by_cases hlp : 1 ≤ lp ∧ lp ≤ 65535
          · rw [if_pos hlp] at h
            dsimp only at h
            cases hf : parse_fixed_ip f with
            | error e2 =>
              rw [hf] at h
              dsimp only at h
              simp only [Except.error.injEq] at h
              exact ⟨_, h ▸ (parse_fixed_ip_err_shape f e2 hf)⟩
            | ok fip => rw [hf] at h; simp at h
          · rw [if_neg hlp] at h
            dsimp only at h
            exact ⟨_, (Except.error.injEq _ _).mp h.symm⟩
        · rw [if_neg htp] at h
          dsimp only at h
          exact ⟨_, (Except.error.injEq _ _).mp h.symm⟩

/-- A target-port out of range (with the earlier checks passing) fails with
the message naming `target-port`. -/
theorem validateConfig_target_port_msg (a n : Str) (s : Dict) (tp lp : Int)
    (an : Option Dict) (f : Option Str)
    (ha : a ≠ []) (hn : n ≠ []) (hs : s ≠ []) (htp : ¬ (1 ≤ tp ∧ tp ≤ 65535)) :
    validateConfig a n s tp lp an f
      = .error (.configError "target-port must be between 1 and 65535") := by
  unfold validateConfig validate_port
  rw [if_neg ha, if_neg hn, if_neg hs, if_neg htp]
  rfl

/-- An lb-port out of range (with the earlier checks passing) fails with the
message naming `lb-port`. -/
theorem validateConfig_lb_port_msg (a n : Str) (s : Dict) (tp lp : Int)
    (an : Option Dict) (f : Option Str)
    (ha : a ≠ []) (hn : n ≠ []) (hs : s ≠ []) (htp : 1 ≤ tp ∧ tp ≤ 65535)
    (hlp : ¬ (1 ≤ lp ∧ lp ≤ 65535)) :
    validateConfig a n s tp lp an f
      = .error (.configError "lb-port must be between 1 and 65535") := by
  unfold validateConfig validate_port
  rw [if_neg ha, if_neg hn, if_neg hs, if_pos htp]
  dsimp only
  rw [if_neg hlp]
  rfl

/-- An invalid fixed IP (with the other checks passing) propagates the
`parse_fixed_ip` error. -/
theorem validateConfig_fixed_ip_err (a n : Str) (s : Dict) (tp lp : Int)
    (an : Option Dict) (f : Option Str) (e : CharmError)
    (ha : a ≠ []) (hn : n ≠ []) (hs : s ≠ []) (htp : 1 ≤ tp ∧ tp ≤ 65535)
    (hlp : 1 ≤ lp ∧ lp ≤ 65535) (hf : parse_fixed_ip f = .error e) :
    validateConfig a n s tp lp an f = .error e := by
  unfold validateConfig validate_port
  rw [if_neg ha, if_neg hn, if_neg hs, if_pos htp]
  dsimp only
  rw [if_pos hlp]
  dsimp only
  rw [hf]

/-- When validation fails for one of the checked reasons, the result is a
`ConfigError`. -/
theorem validateConfig_err_of_bad (a n : Str) (s : Dict) (tp lp : Int)
    (an : Option Dict) (f : Option Str)
    (hbad : a = [] ∨ n = [] ∨ s = [] ∨ ¬ (1 ≤ tp ∧ tp ≤ 65535)
      ∨ ¬ (1 ≤ lp ∧ lp ≤ 65535) ∨ (∃ e, parse_fixed_ip f = .error e)) :
    ∃ m, validateConfig a n s tp lp an f = .error (.configError m) := by
  cases hv : validateConfig a n s tp lp an f with
  | ok cfg =>
    exfalso
    obtain ⟨ha, hn, hs, htp, hlp, hf, _⟩ := validateConfig_ok_shape a n s tp lp an f cfg hv
    rcases hbad with h | h | h | h | h | ⟨e, he⟩
    · exact ha h
    · exact hn h
    · exact hs h
    · exact h htp
    · exact h hlp
    · rw [hf] at he; exact Except.noConfusion he
  | error e =>
    obtain ⟨m, hm⟩ := validateConfig_err_shape a n s tp lp an f e hv
    exact ⟨m, by rw [hm]⟩

/-- A reconcile whose validation fails leaves the cluster untouched and
propagates the `ConfigError`. -/
theorem runEnsure_err (cl : Cluster) (a n : Str) (s : Dict) (tp lp : Int)
    (an : Option Dict) (f : Option Str) (e : CharmError)
    (h : validateConfig a n s tp lp an f = .error e) :
    runEnsure cl a n s tp lp an f = (cl, .error e) := by
  unfold runEnsure
  rw [h]

/-- A reconcile whose validation succeeds always succeeds against the
deterministic cluster and stores exactly the desired object under the
derived key: `create` either succeeds directly, or reports a 409 conflict
and the `replace` fallback overwrites the existing object. -/
theorem runEnsure_ok (cl : Cluster) (a n : Str) (s : Dict) (tp lp : Int)
    (an : Option Dict) (f : Option Str) (cfg : ServiceConfig)
    (h : validateConfig a n s tp lp an f = .ok cfg) :
    runEnsure cl a n s tp lp an f
      = (setObj cl (cfg.nspace, cfg.name) (some (build_service cfg)), .ok ()) := by
  unfold runEnsure
  rw [h]
  dsimp only
  unfold clusterCreate clusterReplace
  dsimp only [build_service]
  cases hcl : cl (cfg.nspace, cfg.name) with
  | none =>
    dsimp only
  | some o =>
    dsimp only
    norm_num
    rw [hcl]

/-- `delete_loadbalancer_service` against the deterministic cluster always
succeeds and leaves the derived key absent (removing the object when
present, observing a 404 treated as success when not). -/
theorem runDelete_eq (cl : Cluster) (a n : Str) :
    runDelete cl a n = (setObj cl (n, a ++ "-lb".data) none, .ok ()) := by
  unfold runDelete clusterDelete
  dsimp only
  cases hcl : cl (n, a ++ "-lb".data) with
  | some o => dsimp only
  | none =>
    dsimp only
    norm_num
    have hid : setObj cl (n, a ++ "-lb".data) none = cl := by
      funext k
      unfold setObj
      by_cases hk : k = (n, a ++ "-lb".data)
      · rw [if_pos hk, hk, hcl]
      · rw [if_neg hk]
    rw [hid]

/-- Refinement of the cluster state machine by the per-application observable
abstraction: after any sequence of operations starting from any cluster, the
object stored under an application's derived key is exactly what the
abstraction predicts (the most recent successfully validated reconcile
targeting that key, unless a later delete cleared it). -/
theorem runTrace_observes (app ns : Str) :
    ∀ (ops : List Op) (cl : Cluster),
    runTrace cl ops (ns, app ++ "-lb".data)
      = observedTrace app ns (cl (ns, app ++ "-lb".data)) ops := by
  intro ops
  induction ops with
  | nil => intro cl; rfl
  | cons op rest ih =>
    intro cl
    show runTrace (stepCluster cl op) rest (ns, app ++ "-lb".data)
      = observedTrace app ns (stepObserved app ns (cl (ns, app ++ "-lb".data)) op) rest
    rw [ih (stepCluster cl op)]
    congr 1
    cases op with
    | reconcile a n s tp lp an f =>
      show (runEnsure cl a n s tp lp an f).1 (ns, app ++ "-lb".data)
        = stepObserved app ns (cl (ns, app ++ "-lb".data)) (.reconcile a n s tp lp an f)
      cases hv : validateConfig a n s tp lp an f with
      | error e =>
        rw [runEnsure_err cl a n s tp lp an f e hv]
        have hobs : stepObserved app ns (cl (ns, app ++ "-lb".data)) (.reconcile a n s tp lp an f)
            = cl (ns, app ++ "-lb".data) := by
          unfold stepObserved
          dsimp only
          rw [hv]
        rw [hobs]
      | ok cfg =>
        rw [runEnsure_ok cl a n s tp lp an f cfg hv]
        have hobs : stepObserved app ns (cl (ns, app ++ "-lb".data)) (.reconcile a n s tp lp an f)
            = if cfg.nspace = ns ∧ cfg.name = app ++ "-lb".data then some (build_service cfg)
              else cl (ns, app ++ "-lb".data) := by
          unfold stepObserved
          dsimp only
          rw [hv]
        rw [hobs]
        show setObj cl (cfg.nspace, cfg.name) (some (build_service cfg)) (ns, app ++ "-lb".data)
          = if cfg.nspace = ns ∧ cfg.name = app ++ "-lb".data then some (build_service cfg)
            else cl (ns, app ++ "-lb".data)
        unfold setObj
        by_cases hcond : cfg.nspace = ns ∧ cfg.name = app ++ "-lb".data
        · rw [if_pos hcond,
            if_pos (show ((ns, app ++ "-lb".data) : Str × Str) = (cfg.nspace, cfg.name) from
              Prod.ext_iff.mpr ⟨hcond.1.symm, hcond.2.symm⟩)]
        · rw [if_neg hcond,
            if_neg (show ¬ ((ns, app ++ "-lb".data) : Str × Str) = (cfg.nspace, cfg.name) from
              fun hk => hcond ⟨(Prod.ext_iff.mp hk).1.symm, (Prod.ext_iff.mp hk).2.symm⟩)]
    | del a n =>
      show (runDelete cl a n).1 (ns, app ++ "-lb".data)
        = stepObserved app ns (cl (ns, app ++ "-lb".data)) (.del a n)
      rw [runDelete_eq cl a n]
      have hobs : stepObserved app ns (cl (ns, app ++ "-lb".data)) (.del a n)
          = if n = ns ∧ a ++ "-lb".data = app ++ "-lb".data then none
            else cl (ns, app ++ "-lb".data) := by
        unfold stepObserved
        dsimp only
      rw [hobs]
      show setObj cl (n, a ++ "-lb".data) none (ns, app ++ "-lb".data)
        = if n = ns ∧ a ++ "-lb".data = app ++ "-lb".data then none
          else cl (ns, app ++ "-lb".data)
      unfold setObj
      by_cases hcond : n = ns ∧ a ++ "-lb".data = app ++ "-lb".data
      · rw [if_pos hcond,
          if_pos (show ((ns, app ++ "-lb".data) : Str × Str) = (n, a ++ "-lb".data) from
            Prod.ext_iff.mpr ⟨hcond.1.symm, hcond.2.symm⟩)]
      · rw [if_neg hcond,
          if_neg (show ¬ ((ns, app ++ "-lb".data) : Str × Str) = (n, a ++ "-lb".data) from
            fun hk => hcond ⟨(Prod.ext_iff.mp hk).1.symm, (Prod.ext_iff.mp hk).2.symm⟩)]

/-- `parseIPv6` always yields exactly eight groups. -/
theorem parseIPv6_len (s : Str) (gs : List Nat) (h : parseIPv6 s = some gs) :
    gs.length = 8 := by
  unfold parseIPv6 at h
  cases hdc : findDoubleColon s with
  | some lr =>
    obtain ⟨l, r⟩ := lr
    rw [hdc] at h
    dsimp only at h
    by_cases hr : (findDoubleColon r).isSome
    · rw [if_pos hr] at h; simp at h
    · rw [if_neg hr] at h
      cases hgl : parseGroupsNoV4 l with
      | none => rw [hgl] at h; simp at h
      | some gl =>
        cases hgr : parseGroupsV4 r with
        | none => rw [hgl, hgr] at h; simp at h
        | some gr =>
          rw [hgl, hgr] at h
          dsimp only at h
          by_cases hlen : gl.length + gr.length ≤ 7
          · rw [if_pos hlen] at h
            simp only [Option.some_inj] at h
            rw [← h]
            simp only [List.length_append, List.length_replicate]
            omega
          · rw [if_neg hlen] at h; simp at h
  | none =>
    rw [hdc] at h
    dsimp only at h
    cases hgs : parseGroupsV4 s with
    | none => rw [hgs] at h; simp at h
    | some gs2 =>
      rw [hgs] at h
      dsimp only at h
      by_cases h8 : gs2.length = 8
      · rw [if_pos h8] at h
        simp only [Option.some_inj] at h
        rw [← h]
        exact h8
      · rw [if_neg h8] at h; simp at h

/-- When `ip_address` returns an IPv6 address it has eight groups. -/
theorem ip_address_v6_len (s : Str) (gs : List Nat)
    (h : ip_address s = some (.v6 gs)) : gs.length = 8 := by
  unfold ip_address at h
  cases h4 : parseIPv4Quad s with
  | some q =>
    obtain ⟨a, b, c, d⟩ := q
    rw [h4] at h
    simp at h
  | none =>
    rw [h4] at h
    dsimp only at h
    cases h6 : parseIPv6 s with
    | none => rw [h6] at h; simp at h
    | some gs2 =>
      rw [h6] at h
      simp only [Option.some_inj, IpAddr.v6.injEq] at h
      rw [← h]
      exact parseIPv6_len s gs2 h6

/-- The canonical text of an address (with eight groups when IPv6) is never
the empty string. -/
theorem ipToText_ne_nil (ip : IpAddr)
    (h : ∀ gs, ip = .v6 gs → gs.length = 8) : ipToText ip ≠ [] := by
  cases ip with
  | v4 a b c d =>
    unfold ipToText
    intro hc
    simp [List.append_eq_nil] at hc
  | v6 gs =>
    unfold ipToText
    cases hbr : bestZeroRun gs with
    | some sl =>
      obtain ⟨st, len⟩ := sl
      intro hc
      dsimp only at hc
      rw [hbr] at hc
      dsimp only at hc
      simp [List.append_eq_nil] at hc
    | none =>
      have h8 := h gs rfl
      cases gs with
      | nil => simp at h8
      | cons g0 t1 =>
        cases t1 with
        | nil => simp at h8
        | cons g1 t =>
          intro hc
          dsimp only at hc
          rw [hbr] at hc
          dsimp only at hc
          simp [joinWith, List.append_eq_nil] at hc

/-- A normalised fixed IP accepted by `parse_fixed_ip` is never the empty
string (so Python truthiness cannot turn it back into "unset"). -/
theorem parse_fixed_ip_some_ne_nil (f : Option Str) (t : Str)
    (h : parse_fixed_ip f = .ok (some t)) : t ≠ [] := by
  unfold parse_fixed_ip at h
  cases f with
  | none => simp at h
  | some r =>
    dsimp only at h
    by_cases ht : stripList r = []
    · rw [if_pos ht] at h; simp at h
    · rw [if_neg ht] at h
      cases hip : ip_address (stripList r) with
      | none => rw [hip] at h; simp at h
      | some ip =>
        rw [hip] at h
        simp only [Except.ok.injEq, Option.some_inj] at h
        rw [← h]
        apply ipToText_ne_nil
        intro gs hgs
        exact ip_address_v6_len _ gs (hgs ▸ hip)

/-- Entries produced by the annotation loop satisfy any property holding for
the initial accumulator and preserved by insertions of trimmed keys and
values. -/
theorem annLoop_entries (P : Str × Str → Prop) :
    ∀ (pairs : List Str) (acc d : Dict),
    annLoop pairs acc = .ok d →
    (∀ kv ∈ acc, P kv) →
    (∀ k v, stripList k = k → stripList v = v → P (k, v)) →
    ∀ kv ∈ d, P kv := by
  intro pairs
  induction pairs with
  | nil =>
    intro acc d h hacc _
    rw [annLoop] at h
    simp only [Except.ok.injEq] at h
    rw [← h]
    exact hacc
  | cons pair rest ih =>
    intro acc d h hacc hP
    rw [annLoop] at h
    cases hsp : splitFirst '=' pair with
    | none => rw [hsp] at h; simp at h
    | some kv =>
      rw [hsp] at h
      obtain ⟨k, v⟩ := kv
      dsimp only at h
      by_cases hval : is_valid_annotation_key (stripList k)
      · rw [if_pos hval] at h
        exact ih _ d h
          (dictInsert_mem hacc (hP _ _ (stripList_idem k) (stripList_idem v)))
          hP
      · rw [if_neg hval] at h; simp at h

/-! ### Example values used by the witnesses -/

def exSelector : Dict := [("app".data, "myapp".data)]

def exSvcCfg : ServiceConfig :=
  { name := "myapp-lb".data, nspace := "ns1".data, selector := exSelector,
    target_port := 8080, lb_port := 80, annotations := [], fixed_ip := none }

def exSvc : Service := build_service exSvcCfg

/-- A cluster whose `create` always reports a 409 conflict and whose
`replace` succeeds. -/
def exClient409 : Client :=
  { createResp := fun _ => .err ⟨409, "conflict"⟩, replaceResp := fun _ => .ok }

/-- A client whose `delete` always reports a 404. -/
def exDelClient404 : DelClient := { deleteResp := fun _ _ => .err ⟨404, "not found"⟩ }

/-- The empty cluster. -/
def exEmptyCluster : Cluster := fun _ => none

/-! ### The claims -/

/-- C1: when `ensure_loadbalancer_service` reaches the cluster (validation
succeeded), a `create` that succeeds returns nothing; a `create` that fails
with a 409 conflict falls back to `replace` with the same desired object, so
the conflict itself is never surfaced and the outcome is exactly the
`replace` outcome; any other `create` error propagates unchanged. -/
theorem c1_create_conflict_fallback (c : Client) (a n : Str) (s : Dict)
    (tp lp : Int) (an : Option Dict) (f : Option Str) (cfg : ServiceConfig)
    (hv : validateConfig a n s tp lp an f = .ok cfg) :
    (c.createResp (build_service cfg) = .ok →
      ensure_loadbalancer_service c a n s tp lp an f
        = (.ok (), [.createCall (build_service cfg)]))
  ∧ (∀ e, c.createResp (build_service cfg) = .err e → e.code = 409 →
      ensure_loadbalancer_service c a n s tp lp an f
        = ((match c.replaceResp (build_service cfg) with
            | .ok => Except.ok ()
            | .err e2 => Except.error (.apiError e2)),
          [.createCall (build_service cfg), .replaceCall (build_service cfg)]))
  ∧ (∀ e, c.createResp (build_service cfg) = .err e → e.code ≠ 409 →
      ensure_loadbalancer_service c a n s tp lp an f
        = (.error (.apiError e), [.createCall (build_service cfg)])) := by
  unfold ensure_loadbalancer_service
  rw [hv]
  dsimp only
  refine ⟨?_, ?_, ?_⟩
  · intro hcr
    rw [hcr]
  · intro e hcr he
    rw [hcr]
    dsimp only
    rw [if_neg (fun hne => hne he)]
    cases c.replaceResp (build_service cfg) with
    | ok => rfl
    | err e2 => rfl
  · intro e hcr he
    rw [hcr]
    dsimp only
    rw [if_pos he]

theorem c1_witness :
    ensure_loadbalancer_service exClient409 "myapp".data "ns1".data exSelector
      8080 80 none none
      = (.ok (), [.createCall exSvc, .replaceCall exSvc]) := by
  have h := (c1_create_conflict_fallback exClient409 "myapp".data "ns1".data
    exSelector 8080 80 none none exSvcCfg rfl).2.1 ⟨409, "conflict"⟩ rfl rfl
  exact h

/-- C2: `delete_loadbalancer_service` always issues exactly one delete for
the derived name `<app_name>-lb`; a 404 is treated as success; any other API
error propagates; and against the cluster semantics a delete always succeeds
(in particular when the object is already absent, and when called twice in a
row). -/
theorem c2_delete_idempotent (c : DelClient) (a n : Str) :
    (delete_loadbalancer_service c a n).2 = [(a ++ "-lb".data, n)]
  ∧ (c.deleteResp (a ++ "-lb".data) n = .ok →
      (delete_loadbalancer_service c a n).1 = .ok ())
  ∧ (∀ e, c.deleteResp (a ++ "-lb".data) n = .err e → e.code = 404 →
      (delete_loadbalancer_service c a n).1 = .ok ())
  ∧ (∀ e, c.deleteResp (a ++ "-lb".data) n = .err e → e.code ≠ 404 →
      (delete_loadbalancer_service c a n).1 = .error (.apiError e))
  ∧ (∀ cl : Cluster, (runDelete cl a n).2 = .ok ()
      ∧ (runDelete (runDelete cl a n).1 a n).2 = .ok ()) := by
  refine ⟨?_, ?_, ?_, ?_, ?_⟩
  · unfold delete_loadbalancer_service
    dsimp only
    cases hr : c.deleteResp (a ++ "-lb".data) n with
    | ok => rfl
    | err e =>
      dsimp only
      split
      · rfl
      · rfl
  · intro hr
    unfold delete_loadbalancer_service
    dsimp only
    rw [hr]
  · intro e hr he
    unfold delete_loadbalancer_service
    dsimp only
    rw [hr]
    dsimp only
    rw [if_pos he]
  · intro e hr he
    unfold delete_loadbalancer_service
    dsimp only
    rw [hr]
    dsimp only
    rw [if_neg he]
  · intro cl
    constructor
    · rw [runDelete_eq cl a n]
    · rw [runDelete_eq cl a n]
      dsimp only
      rw [runDelete_eq _ a n]

theorem c2_witness :
    (delete_loadbalancer_service exDelClient404 "myapp".data "ns1".data).2
        = [("myapp-lb".data, "ns1".data)]
  ∧ (delete_loadbalancer_service exDelClient404 "myapp".data "ns1".data).1
        = .ok ()
  ∧ (runDelete exEmptyCluster "myapp".data "ns1".data).2 = .ok () := by
  have h := c2_delete_idempotent exDelClient404 "myapp".data "ns1".data
  exact ⟨h.1, h.2.2.1 ⟨404, "not found"⟩ rfl rfl,
    (h.2.2.2.2 exEmptyCluster).1⟩

/-- C3: `ensure_loadbalancer_service` re-validates its inputs before any
cluster call: an empty app name, namespace or selector, a port outside
[1, 65535] (with the message naming `target-port` or `lb-port`), or a set
but invalid fixed IP (re-normalised via `parse_fixed_ip`) each produce a
`ConfigError`, and in every such case the list of API calls made is empty. -/
theorem c3_validation_before_api (c : Client) (a n : Str) (s : Dict)
    (tp lp : Int) (an : Option Dict) (f : Option Str) :
    ((a = [] ∨ n = [] ∨ s = [] ∨ ¬ (1 ≤ tp ∧ tp ≤ 65535)
        ∨ ¬ (1 ≤ lp ∧ lp ≤ 65535) ∨ (∃ e, parse_fixed_ip f = .error e)) →
      ∃ m, ensure_loadbalancer_service c a n s tp lp an f
        = (.error (.configError m), []))
  ∧ (a ≠ [] → n ≠ [] → s ≠ [] → ¬ (1 ≤ tp ∧ tp ≤ 65535) →
      ensure_loadbalancer_service c a n s tp lp an f
        = (.error (.configError "target-port must be between 1 and 65535"), []))
  ∧ (a ≠ [] → n ≠ [] → s ≠ [] → (1 ≤ tp ∧ tp ≤ 65535) → ¬ (1 ≤ lp ∧ lp ≤ 65535) →
      ensure_loadbalancer_service c a n s tp lp an f
        = (.error (.configError "lb-port must be between 1 and 65535"), []))
  ∧ (∀ e, a ≠ [] → n ≠ [] → s ≠ [] → (1 ≤ tp ∧ tp ≤ 65535) → (1 ≤ lp ∧ lp ≤ 65535) →
      parse_fixed_ip f = .error e →
      ensure_loadbalancer_service c a n s tp lp an f = (.error e, [])) := by
  refine ⟨?_, ?_, ?_, ?_⟩
  · intro hbad
    obtain ⟨m, hm⟩ := validateConfig_err_of_bad a n s tp lp an f hbad
    exact ⟨m, by unfold ensure_loadbalancer_service; rw [hm]⟩
  · intro ha hn hs htp
    unfold ensure_loadbalancer_service
    rw [validateConfig_target_port_msg a n s tp lp an f ha hn hs htp]
  · intro ha hn hs htp hlp
    unfold ensure_loadbalancer_service
    rw [validateConfig_lb_port_msg a n s tp lp an f ha hn hs htp hlp]
  · intro e ha hn hs htp hlp hf
    unfold ensure_loadbalancer_service
    rw [validateConfig_fixed_ip_err a n s tp lp an f e ha hn hs htp hlp hf]

theorem c3_witness :
    ensure_loadbalancer_service exClient409 "myapp".data "ns1".data exSelector
      0 80 none none
      = (.error (.configError "target-port must be between 1 and 65535"), [])
  ∧ ensure_loadbalancer_service exClient409 "myapp".data "ns1".data exSelector
      8080 80 none (some "not-an-ip".data)
      = (.error (.configError "fixed-ip must be a valid IPv4 or IPv6 address"), []) := by
  constructor
  · exact (c3_validation_before_api exClient409 "myapp".data "ns1".data exSelector
      0 80 none none).2.1 (by decide) (by decide) (by decide) (by decide)
  · exact (c3_validation_before_api exClient409 "myapp".data "ns1".data exSelector
      8080 80 none (some "not-an-ip".data)).2.2.2
      (.configError "fixed-ip must be a valid IPv4 or IPv6 address")
      (by decide) (by decide) (by decide) (by decide) (by decide) rfl

/-- C5: for every configuration accepted by validation, the desired Service
object has the derived name `<app_name>-lb`, the given namespace, the
`app.kubernetes.io/name` label, the given annotations (absent when the map
is empty), type LoadBalancer, the normalised fixed IP (absent when unset),
the given selector, and exactly one TCP port entry named `lb` carrying
`lb_port`/`target_port`. -/
theorem c5_desired_service_shape (a n : Str) (s : Dict) (tp lp : Int)
    (an : Option Dict) (f : Option Str) (cfg : ServiceConfig)
    (hv : validateConfig a n s tp lp an f = .ok cfg) :
    build_service cfg
      = { metadata :=
            { name := a ++ "-lb".data
              nspace := n
              labels := [("app.kubernetes.io/name".data, a ++ "-lb".data)]
              annotations := if an.getD [] = [] then none else some (an.getD []) }
          spec :=
            { type := "LoadBalancer"
              loadBalancerIP := cfg.fixed_ip
              selector := s
              ports := [{ port := lp, targetPort := tp,
                          protocol := "TCP", name := "lb" }] } } := by
  obtain ⟨-, -, -, -, -, hf, hcfg⟩ := validateConfig_ok_shape a n s tp lp an f cfg hv
  cases cfg with
  | mk nm nsp sel tpp lpp ann fip =>
    simp only [ServiceConfig.mk.injEq] at hcfg
    obtain ⟨e1, e2, e3, e4, e5, e6, -⟩ := hcfg
    subst e1
    subst e2
    subst e3
    subst e4
    subst e5
    subst e6
    dsimp only at hf ⊢
    unfold build_service
    dsimp only
    cases hip : fip with
    | none => rfl
    | some t =>
      rw [hip] at hf
      have ht : t ≠ [] := parse_fixed_ip_some_ne_nil f t hf
      dsimp only
      rw [if_neg ht]

theorem c5_witness :
    build_service
        { name := "myapp-lb".data, nspace := "ns1".data, selector := exSelector,
          target_port := 8080, lb_port := 80,
          annotations := [("example.com/note".data, "x".data)],
          fixed_ip := some "10.0.0.1".data }
      = { metadata :=
            { name := "myapp".data ++ "-lb".data
              nspace := "ns1".data
              labels := [("app.kubernetes.io/name".data, "myapp".data ++ "-lb".data)]
              annotations := if (some [("example.com/note".data, "x".data)]).getD [] = []
                then none else some ((some [("example.com/note".data, "x".data)]).getD []) }
          spec :=
            { type := "LoadBalancer"
              loadBalancerIP := some "10.0.0.1".data
              selector := exSelector
              ports := [{ port := 80, targetPort := 8080,
                          protocol := "TCP", name := "lb" }] } } := by
  exact c5_desired_service_shape "myapp".data "ns1".data exSelector 8080 80
    (some [("example.com/note".data, "x".data)]) (some "10.0.0.1".data) _ rfl

/-- C4: with the cluster modelled as state keyed by (namespace, name) and
Reconcile/Delete as steps, each application's slot (the single derived key
`<app_name>-lb`) always holds exactly what the observable abstraction
predicts — the most recently successfully reconciled configuration's desired
object; a successful reconcile stores the desired object under its derived
key, touches no other key, and never removes an object; only a delete clears
the slot, and it too touches no other key. -/
theorem c4_cluster_invariant (cl : Cluster) (ops : List Op) (app ns : Str) :
    runTrace cl ops (ns, app ++ "-lb".data)
      = observedTrace app ns (cl (ns, app ++ "-lb".data)) ops
  ∧ (∀ a n s tp lp an f cfg, validateConfig a n s tp lp an f = .ok cfg →
      (runEnsure cl a n s tp lp an f).2 = .ok ()
      ∧ (runEnsure cl a n s tp lp an f).1 (cfg.nspace, cfg.name)
          = some (build_service cfg)
      ∧ cfg.name = a ++ "-lb".data ∧ cfg.nspace = n
      ∧ (∀ k, k ≠ (cfg.nspace, cfg.name) →
          (runEnsure cl a n s tp lp an f).1 k = cl k))
  ∧ (∀ a n s tp lp an f k, cl k ≠ none →
      (runEnsure cl a n s tp lp an f).1 k ≠ none)
  ∧ (∀ a n, (runDelete cl a n).1 (n, a ++ "-lb".data) = none
      ∧ (∀ k, k ≠ (n, a ++ "-lb".data) → (runDelete cl a n).1 k = cl k)) := by
  refine ⟨runTrace_observes app ns ops cl, ?_, ?_, ?_⟩
  · intro a n s tp lp an f cfg hv
    obtain ⟨-, -, -, -, -, -, hcfg⟩ := validateConfig_ok_shape a n s tp lp an f cfg hv
    rw [runEnsure_ok cl a n s tp lp an f cfg hv]
    refine ⟨rfl, ?_, ?_, ?_, ?_⟩
    · dsimp only [setObj]
      rw [if_pos rfl]
    · rw [hcfg]
    · rw [hcfg]
    · intro k hk
      dsimp only [setObj]
      rw [if_neg hk]
  · intro a n s tp lp an f k hne
    cases hv : validateConfig a n s tp lp an f with
    | error e =>
      rw [runEnsure_err cl a n s tp lp an f e hv]
      exact hne
    | ok cfg =>
      rw [runEnsure_ok cl a n s tp lp an f cfg hv]
      unfold setObj
      dsimp only
      by_cases hk : k = (cfg.nspace, cfg.name)
      · rw [if_pos hk]
        exact Option.noConfusion
      · rw [if_neg hk]
        exact hne
  · intro a n
    rw [runDelete_eq cl a n]
    constructor
    · dsimp only [setObj]
      rw [if_pos rfl]
    · intro k hk
      dsimp only [setObj]
      rw [if_neg hk]

theorem c4_witness :
    (runEnsure exEmptyCluster "myapp".data "ns1".data exSelector
        8080 80 none none).2 = .ok ()
  ∧ (runEnsure exEmptyCluster "myapp".data "ns1".data exSelector
        8080 80 none none).1 (exSvcCfg.nspace, exSvcCfg.name) = some exSvc
  ∧ (runDelete exEmptyCluster "myapp".data "ns1".data).1
        ("ns1".data, "myapp".data ++ "-lb".data) = none := by
  have h := c4_cluster_invariant exEmptyCluster [] "myapp".data "ns1".data
  have h2 := h.2.1 "myapp".data "ns1".data exSelector 8080 80 none none exSvcCfg rfl
  exact ⟨h2.1, h2.2.1, (h.2.2.2 "myapp".data "ns1".data).1⟩

/-- C6: for CSV-form selector input whose segments are well-formed, the
parser returns exactly the trimmed key/value pairs (skipping empty segments,
duplicate keys keeping the last value); `""`, `"   "` and `"\x7b\x7d"` each
fail with a `ConfigError`, and an ok result never has zero entries. -/
theorem c6_parse_selector_csv (r : Str) (ps : List (Str × Str))
    (hb : (stripList r).head? ≠ some '{')
    (hps : csvPairs (splitOnChar ',' (stripList r)) = some ps)
    (hne : ps ≠ []) :
    parse_selector (some r) = .ok (insAll [] ps)
  ∧ parse_selector (some "".data)
      = .error (.configError "selector must not be empty")
  ∧ parse_selector (some "   ".data)
      = .error (.configError "selector must not be empty")
  ∧ parse_selector (some "\x7b\x7d".data)
      = .error (.configError "selector must not be empty")
  ∧ (∀ raw d, parse_selector raw = .ok d → d ≠ []) := by
  refine ⟨?_, rfl, rfl, rfl, parse_selector_ok_ne_nil⟩
  have hs : stripList r ≠ [] := by
    intro h0
    rw [h0] at hps
    have hempty : csvPairs (splitOnChar ',' ([] : Str)) = some [] := rfl
    rw [hempty] at hps
    simp only [Option.some_inj] at hps
    exact hne hps.symm
  rw [parse_selector_csv_branch r hs hb]
  rw [csvLoop_of_pairs _ [] ps hps]
  rw [if_neg (insAll_ne_nil ps [] (Or.inr hne))]

theorem c6_witness :
    parse_selector (some "a=b, tier = web ,a=c,".data)
      = .ok [("a".data, "c".data), ("tier".data, "web".data)] := by
  exact (c6_parse_selector_csv "a=b, tier = web ,a=c,".data
    [("a".data, "b".data), ("tier".data, "web".data), ("a".data, "c".data)]
    (by decide) rfl (by decide)).1

/-- C7: the code accepts the annotation key `"a\n/b"` although its prefix
`"a\n"` is not a DNS-1123 subdomain — the `$` anchor of Python `re` also
matches just before a trailing newline, so `_is_valid_annotation_key`
accepts a prefix ending in a newline, contradicting the documented
qualified-name grammar. -/
theorem c7_annotation_key_newline_eval :
    parse_annotations (some "a\n/b=v".data) = .ok [("a\n/b".data, "v".data)]
  ∧ dns1123Subdomain "a\n".data = false
  ∧ is_valid_annotation_key "a\n/b".data = true :=
  ⟨rfl, rfl, rfl⟩

/-- C8 (amended): every map returned by `parse_selector` has at least one
entry, and in CSV form each key and value is non-empty; the JSON branch,
however, accepts empty-string keys and values (see the counterexample). -/
theorem c8_selector_entries (r : Str) (d : Dict)
    (h : parse_selector (some r) = .ok d) :
    d ≠ []
  ∧ ((stripList r).head? ≠ some '{' →
      ∀ kv ∈ d, kv.1 ≠ [] ∧ kv.2 ≠ []) := by
  refine ⟨parse_selector_ok_ne_nil _ _ h, ?_⟩
  intro hb kv hkv
  have hs : stripList r ≠ [] := by
    intro h0
    unfold parse_selector at h
    dsimp only at h
    rw [if_pos h0] at h
    simp at h
  rw [parse_selector_csv_branch r hs hb] at h
  exact csvLoop_entries (fun kv => kv.1 ≠ [] ∧ kv.2 ≠ []) _ [] d h (by simp)
    (fun k v _ _ hk0 hv0 => ⟨hk0, hv0⟩) kv hkv

theorem c8_counterexample :
    parse_selector (some "\x7b\"\":\"\"\x7d".data) = .ok [([], [])] := rfl

theorem c8_witness :
    (([("a".data, "b".data)] : Dict) ≠ []
      ∧ ((stripList "a=b".data).head? ≠ some '{' →
          ∀ kv ∈ ([("a".data, "b".data)] : Dict), kv.1 ≠ [] ∧ kv.2 ≠ [])) :=
  c8_selector_entries "a=b".data [("a".data, "b".data)] rfl

/-- C9 (amended): in CSV form each non-empty trimmed segment must contain at
least one `=`; the segment is split at its first `=` into a trimmed key and
a trimmed remainder (which may itself contain `=`), both required non-empty;
a segment with no `=` or with an empty trimmed key or value forces a
`ConfigError`. -/
theorem c9_selector_split_first (r : Str)
    (hs : stripList r ≠ []) (hb : (stripList r).head? ≠ some '{') :
    (∀ d, parse_selector (some r) = .ok d →
      ∀ seg ∈ splitOnChar ',' (stripList r), stripList seg ≠ [] →
        ∃ k v, splitFirst '=' (stripList seg) = some (k, v)
          ∧ stripList k ≠ [] ∧ stripList v ≠ [])
  ∧ (∀ seg ∈ splitOnChar ',' (stripList r), stripList seg ≠ [] →
      (splitFirst '=' (stripList seg) = none ∨
        (∃ k v, splitFirst '=' (stripList seg) = some (k, v)
          ∧ (stripList k = [] ∨ stripList v = []))) →
      ∃ m, parse_selector (some r) = .error (.configError m)) := by
  constructor
  · intro d h seg hmem hnes
    rw [parse_selector_csv_branch r hs hb] at h
    by_contra hc
    have hbad : splitFirst '=' (stripList seg) = none ∨
        (∃ k v, splitFirst '=' (stripList seg) = some (k, v)
          ∧ (stripList k = [] ∨ stripList v = [])) := by
      by_cases hn : splitFirst '=' (stripList seg) = none
      · exact Or.inl hn
      · obtain ⟨⟨k, v⟩, hsp⟩ := Option.ne_none_iff_exists'.mp hn
        by_cases hkv : stripList k = [] ∨ stripList v = []
        · exact Or.inr ⟨k, v, hsp, hkv⟩
        · push_neg at hkv
          exact absurd ⟨k, v, hsp, hkv.1, hkv.2⟩ hc
    have hnone := csvPairs_none_of_bad _ seg hmem hnes hbad
    obtain ⟨m, hm⟩ := csvLoop_err_of_none (splitOnChar ',' (stripList r)) [] hnone
    rw [h] at hm
    exact Except.noConfusion hm
  · intro seg hmem hnes hbad
    have hnone := csvPairs_none_of_bad _ seg hmem hnes hbad
    obtain ⟨m, hm⟩ := csvLoop_err_of_none (splitOnChar ',' (stripList r)) [] hnone
    exact ⟨m, by rw [parse_selector_csv_branch r hs hb]; exact hm⟩

theorem c9_counterexample :
    parse_selector (some "a=b=c".data) = .ok [("a".data, "b=c".data)] := rfl

theorem c9_witness :
    ∃ k v, splitFirst '=' (stripList "a=b=c".data) = some (k, v)
      ∧ stripList k ≠ [] ∧ stripList v ≠ [] := by
  exact (c9_selector_split_first "a=b=c".data (by decide) (by decide)).1
    [("a".data, "b=c".data)] rfl "a=b=c".data (by decide) (by decide)

/-- C10: `parse_annotations` strips surrounding whitespace from each key and
value before storing them, so no entry of an accepted map carries leading or
trailing whitespace; in particular `"k= v "` parses to `k ↦ v`. -/
theorem c10_annotation_values_stripped :
    (∀ raw d, parse_annotations raw = .ok d →
      ∀ kv ∈ d, stripList kv.1 = kv.1 ∧ stripList kv.2 = kv.2)
  ∧ parse_annotations (some "k= v ".data) = .ok [("k".data, "v".data)] := by
  constructor
  · intro raw d h kv hkv
    unfold parse_annotations at h
    cases raw with
    | none =>
      simp only [Except.ok.injEq] at h
      rw [← h] at hkv
      simp at hkv
    | some r =>
      dsimp only at h
      by_cases ht : rstripCommas (stripList r) = []
      · rw [if_pos ht] at h
        simp only [Except.ok.injEq] at h
        rw [← h] at hkv
        simp at hkv
      · rw [if_neg ht] at h
        exact annLoop_entries
          (fun kv => stripList kv.1 = kv.1 ∧ stripList kv.2 = kv.2)
          _ [] d h (by simp) (fun k v hk hv => ⟨hk, hv⟩) kv hkv
  · rfl

theorem c10_witness :
    stripList ("k".data, "v".data).1 = ("k".data, "v".data).1
      ∧ stripList ("k".data, "v".data).2 = ("k".data, "v".data).2 := by
  exact c10_annotation_values_stripped.1 (some "k= v ".data)
    [("k".data, "v".data)] rfl ("k".data, "v".data) (by decide)

end LB
